import Mathlib

/-!
Verification of the `aaclient` streaming sample decoder and its
surrounding helpers, shallowly embedded in Lean.

The framed wire codec (`split`/`join`) and the `StreamDecoder` driver live
in the Cython extension `aaclient/ext.pyx`, which is not part of the
Python sources proper; those operations are modelled here from the
specification (doc comments marked `Modelled from the spec:`), cross
checked against the concrete expectations recorded in
`aaclient/test/test_ext.py`.  The time-interval resolution (`date.py`)
and the query assembler (`appl.py`) are translated directly from the
Python sources.

Bytes are represented as `Nat` values (< 256 for all streams produced by
the encoders), byte strings as `List Nat`.
-/

namespace AAClient

/-! ## Frame splitter (`_ext.split` / `_ext.join`) -/

/-- Prepend byte `a` to the first frame of a split result, or to the
remainder when no frame boundary has been seen yet. -/
def consB (a : Nat) : List (List Nat) × List Nat → List (List Nat) × List Nat
  | ([], r) => ([], a :: r)
  | (f :: fs, r) => ((a :: f) :: fs, r)

/-- Unescape the continuation byte of an `0x1B` escape pair:
`0x01 ↦ 0x1B`, `0x02 ↦ 0x0A`, `0x03 ↦ 0x0D`. -/
def unesc (b : Nat) : Nat :=
  if b = 1 then 27 else if b = 2 then 10 else 13

/-- Prepend a decoded escape pair `0x1B b` to a split result: the
unescaped byte goes into the first frame, while a remainder (no frame
boundary yet) receives the two raw bytes unchanged. -/
def consEsc (b : Nat) : List (List Nat) × List Nat → List (List Nat) × List Nat
  | ([], r) => ([], 27 :: b :: r)
  | (f :: fs, r) => ((unesc b :: f) :: fs, r)

/-- Modelled from the spec: `_ext.split` (Frame Splitter, `ext.pyx`, not
under the Python sources).  One pass over the input: breaks at `0x0A`
frame terminators, reverses the escape substitutions
`0x1B 0x01 ↦ 0x1B`, `0x1B 0x02 ↦ 0x0A`, `0x1B 0x03 ↦ 0x0D` inside each
frame, and returns the raw bytes after the last terminator as the
remainder.  An `0x1B` followed by any byte other than
`0x01`/`0x02`/`0x03` is malformed framing (`.error ()`); an `0x1B` that
is the last byte of the input is kept in the remainder so that the
continuation byte may arrive with the next chunk. -/
def split : List Nat → Except Unit (List (List Nat) × List Nat)
  | [] => .ok ([], [])
  | a :: rest =>
    if a = 10 then (split rest).map (fun p => ([] :: p.1, p.2))
    else if a = 27 then
      match rest with
      | [] => .ok ([], [27])
      | b :: rest2 =>
        if b = 1 ∨ b = 2 ∨ b = 3 then (split rest2).map (consEsc b)
        else .error ()
    else (split rest).map (consB a)

/-- Escape one byte for framing: `0x1B ↦ 0x1B 0x01`, `0x0A ↦ 0x1B 0x02`,
`0x0D ↦ 0x1B 0x03`, all others unchanged. -/
def escByte (b : Nat) : List Nat :=
  if b = 27 then [27, 1] else if b = 10 then [27, 2]
  else if b = 13 then [27, 3] else [b]

/-- Escape every byte of a logical frame. -/
def escFrame (f : List Nat) : List Nat :=
  f.foldr (fun b acc => escByte b ++ acc) []

/-- Modelled from the spec: `_ext.join` (`ext.pyx`, not under the Python
sources).  Applies the inverse escape to each logical frame and appends
a `0x0A` terminator after each. -/
def join (L : List (List Nat)) : List Nat :=
  L.foldr (fun f acc => escFrame f ++ 10 :: acc) []

/-- Spec-side predicate for claim C6, phrased as in the claim: some
`0x1B` byte of the input is immediately followed by a byte other than
`0x01`, `0x02`, `0x03`. -/
def hasBadEscape : List Nat → Bool
  | [] => false
  | [_] => false
  | a :: b :: rest =>
    (decide (a = 27) && !(decide (b = 1) || decide (b = 2) || decide (b = 3)))
      || hasBadEscape (b :: rest)

/-- `true` iff an `Except` value is an error. -/
def isError {ε α : Type} : Except ε α → Bool
  | .error _ => true
  | .ok _ => false

/-- Continue a split after a first portion: split the raw remainder plus
the new bytes `y`, and append the newly completed frames. -/
def thenSplit (y : List Nat) (p : List (List Nat) × List Nat) :
    Except Unit (List (List Nat) × List Nat) :=
  (split (p.2 ++ y)).map (fun q => (p.1 ++ q.1, q.2))

/-! ## Protobuf primitives

The wire schemas are those of §6 of the specification:
`PayloadInfo{type=1 varint, pvname=2 bytes, year=3 varint,
elementCount=4 varint, headers=5 repeated FieldValue{name=1, val=2}}`
and per-type sample messages with
`sec=1 varint, ns=2 varint, val=3 (type dependent), severity=4 varint?,
status=5 varint?, fieldvalues=6 repeated?`. -/

/-- Base-128 varint decoder: value plus unconsumed bytes, `none` on a
truncated varint. -/
def varintDec : List Nat → Option (Nat × List Nat)
  | [] => none
  | b :: rest =>
    if b < 128 then some (b, rest)
    else
      match varintDec rest with
      | none => none
      | some (v, r) => some ((b - 128) + 128 * v, r)

/-- Base-128 varint encoder (fuelled so that it reduces definitionally;
ten bytes cover every value below `2 ^ 70`). -/
def varintEncF : Nat → Nat → List Nat
  | 0, n => [n % 128]
  | fuel + 1, n => if n < 128 then [n] else (n % 128 + 128) :: varintEncF fuel (n / 128)

def varintEnc (n : Nat) : List Nat := varintEncF 10 n

/-- Take exactly `n` bytes, or fail. -/
def readLen (n : Nat) (l : List Nat) : Option (List Nat × List Nat) :=
  if l.length < n then none else some (l.take n, l.drop n)

/-- Skip one field of unknown number according to its wire type
(varint, 64-bit, length-delimited, 32-bit); unknown wire types are a
parse failure. -/
def skipWire (wire : Nat) (rest : List Nat) : Option (List Nat) :=
  if wire = 0 then (varintDec rest).map (·.2)
  else if wire = 1 then (readLen 8 rest).map (·.2)
  else if wire = 2 then
    match varintDec rest with
    | none => none
    | some (len, r2) => (readLen len r2).map (·.2)
  else if wire = 5 then (readLen 4 rest).map (·.2)
  else none

/-- Framing header of a stream segment (§4.2 of the spec, the dict
returned by `_ext.decode_PayloadInfo`). -/
structure PayloadInfo where
  type : Nat
  pvname : List Nat
  year : Nat
  elementCount : Nat
  headers : List (List Nat × List Nat)
  deriving DecidableEq

/-- Field loop for one embedded `FieldValue{name=1 bytes, val=2 bytes}`
message. -/
def decodeFieldValueF : Nat → List Nat → Option (List Nat) → Option (List Nat) →
    Option (List Nat × List Nat)
  | 0, _, _, _ => none
  | _ + 1, [], name, val =>
    match name, val with
    | some n, some v => some (n, v)
    | _, _ => none
  | fuel + 1, b :: bs, name, val =>
    match varintDec (b :: bs) with
    | none => none
    | some (tag, rest) =>
      let fn := tag / 8
      let wire := tag % 8
      if fn = 1 ∨ fn = 2 then
        if wire = 2 then
          match varintDec rest with
          | none => none
          | some (len, r2) =>
            match readLen len r2 with
            | none => none
            | some (c, r3) =>
              if fn = 1 then decodeFieldValueF fuel r3 (some c) val
              else decodeFieldValueF fuel r3 name (some c)
        else none
      else
        match skipWire wire rest with
        | none => none
        | some r => decodeFieldValueF fuel r name val

/-- Field loop for a `PayloadInfo` message; `type`, `pvname`, `year` and
`elementCount` are required, unknown field numbers are skipped, and a
known field with the wrong wire type or an unknown wire type fails. -/
def decodePayloadInfoF : Nat → List Nat → Option Nat → Option (List Nat) →
    Option Nat → Option Nat → List (List Nat × List Nat) → Option PayloadInfo
  | 0, _, _, _, _, _, _ => none
  | _ + 1, [], ty, pv, yr, ec, hs =>
    match ty, pv, yr, ec with
    | some t, some p, some y, some e => some ⟨t, p, y, e, hs⟩
    | _, _, _, _ => none
  | fuel + 1, b :: bs, ty, pv, yr, ec, hs =>
    match varintDec (b :: bs) with
    | none => none
    | some (tag, rest) =>
      let fn := tag / 8
      let wire := tag % 8
      if fn = 1 ∨ fn = 3 ∨ fn = 4 then
        if wire = 0 then
          match varintDec rest with
          | none => none
          | some (v, r) =>
            if fn = 1 then decodePayloadInfoF fuel r (some v) pv yr ec hs
            else if fn = 3 then decodePayloadInfoF fuel r ty pv (some v) ec hs
            else decodePayloadInfoF fuel r ty pv yr (some v) hs
        else none
      else if fn = 2 ∨ fn = 5 then
        if wire = 2 then
          match varintDec rest with
          | none => none
          | some (len, r2) =>
            match readLen len r2 with
            | none => none
            | some (c, r3) =>
              if fn = 2 then decodePayloadInfoF fuel r3 ty (some c) yr ec hs
              else
                match decodeFieldValueF (c.length + 1) c none none with
                | none => none
                | some kv => decodePayloadInfoF fuel r3 ty pv yr ec (hs ++ [kv])
        else none
      else
        match skipWire wire rest with
        | none => none
        | some r => decodePayloadInfoF fuel r ty pv yr ec hs

/-- Modelled from the spec: `_ext.decode_PayloadInfo` (`ext.pyx`, not
under the Python sources).  Decodes one header frame; `none` stands for
the `MalformedHeader` failure. -/
def decode_PayloadInfo (frame : List Nat) : Option PayloadInfo :=
  decodePayloadInfoF (frame.length + 1) frame none none none none []

/-- One decoded sample record.  The scalar-double value is carried as
its raw 64-bit IEEE-754 bit pattern; absent alarm fields default to
zero. -/
structure SampleRec where
  sec : Nat
  ns : Nat
  valBits : Nat
  severity : Nat
  status : Nat
  deriving DecidableEq

/-- Little-endian bytes to natural number. -/
def le64ToNat (bytes : List Nat) : Nat :=
  bytes.foldr (fun b acc => b + 256 * acc) 0

/-- Field loop for one `ScalarDouble` sample message:
`sec=1 varint, ns=2 varint, val=3 fixed64, severity=4 varint?,
status=5 varint?, fieldvalues=6 length-delimited?`; `sec`, `ns` and
`val` are required, a known field with the wrong wire type fails
(§4.3: this wire-type mismatch is what makes a header frame fail as a
sample). -/
def decodeScalarDoubleF : Nat → List Nat → Option Nat → Option Nat → Option Nat →
    Nat → Nat → Option SampleRec
  | 0, _, _, _, _, _, _ => none
  | _ + 1, [], sec, ns, vb, sev, st =>
    match sec, ns, vb with
    | some s, some n, some v => some ⟨s, n, v, sev, st⟩
    | _, _, _ => none
  | fuel + 1, b :: bs, sec, ns, vb, sev, st =>
    match varintDec (b :: bs) with
    | none => none
    | some (tag, rest) =>
      let fn := tag / 8
      let wire := tag % 8
      if fn = 1 ∨ fn = 2 ∨ fn = 4 ∨ fn = 5 then
        if wire = 0 then
          match varintDec rest with
          | none => none
          | some (v, r) =>
            if fn = 1 then decodeScalarDoubleF fuel r (some v) ns vb sev st
            else if fn = 2 then decodeScalarDoubleF fuel r sec (some v) vb sev st
            else if fn = 4 then decodeScalarDoubleF fuel r sec ns vb v st
            else decodeScalarDoubleF fuel r sec ns vb sev v
        else none
      else if fn = 3 then
        if wire = 1 then
          match readLen 8 rest with
          | none => none
          | some (c, r) => decodeScalarDoubleF fuel r sec ns (some (le64ToNat c)) sev st
        else none
      else if fn = 6 then
        if wire = 2 then
          match varintDec rest with
          | none => none
          | some (len, r2) =>
            match readLen len r2 with
            | none => none
            | some (_, r3) => decodeScalarDoubleF fuel r3 sec ns vb sev st
        else none
      else
        match skipWire wire rest with
        | none => none
        | some r => decodeScalarDoubleF fuel r sec ns vb sev st

/-- Modelled from the spec: `decode_sample` (§4.3; `ext.pyx`, not under
the Python sources).  Only the `SCALAR_DOUBLE` payload type (tag 6 in
`dtype.PayloadType`), the one exercised by every fixture claim, is
materialized; `none` stands for the per-stream sample decode failure. -/
def decode_sample (h : PayloadInfo) (frame : List Nat) : Option SampleRec :=
  if h.type = 6 then decodeScalarDoubleF (frame.length + 1) frame none none none 0 0
  else none

/-! ## Encoders (canonical field order, used to build the fixture) -/

def le64Bytes (v : Nat) : List Nat :=
  (List.range 8).map (fun i => v / 256 ^ i % 256)

def varintField (fn v : Nat) : List Nat := varintEnc (fn * 8) ++ varintEnc v

def lenDelimField (fn : Nat) (content : List Nat) : List Nat :=
  varintEnc (fn * 8 + 2) ++ varintEnc content.length ++ content

def fixed64Field (fn v : Nat) : List Nat := varintEnc (fn * 8 + 1) ++ le64Bytes v

def encode_FieldValue (kv : List Nat × List Nat) : List Nat :=
  lenDelimField 1 kv.1 ++ lenDelimField 2 kv.2

/-- Modelled from the spec: `_ext.encode_PayloadInfo` with canonical
field ordering. -/
def encode_PayloadInfo (h : PayloadInfo) : List Nat :=
  varintField 1 h.type ++ lenDelimField 2 h.pvname ++ varintField 3 h.year
    ++ varintField 4 h.elementCount
    ++ (h.headers.map (fun kv => lenDelimField 5 (encode_FieldValue kv))).foldr
        (fun a acc => a ++ acc) []

/-- Modelled from the spec: encoding of one scalar-double sample (as in
`_ext.encode_samples`), omitting zero-valued optional alarm fields. -/
def encode_scalar_double (s : SampleRec) : List Nat :=
  varintField 1 s.sec ++ varintField 2 s.ns ++ fixed64Field 3 s.valBits
    ++ (if s.severity = 0 then [] else varintField 4 s.severity)
    ++ (if s.status = 0 then [] else varintField 5 s.status)

/-! ## Stream driver (`_ext.StreamDecoder`) -/

/-- POSIX seconds of Jan 1 00:00:00 UTC of `year` (§4.2 year handling). -/
def yearBaseSec (year : Nat) : Nat :=
  86400 * ((List.range (year - 1970)).foldl
    (fun acc i =>
      acc + (if (1970 + i) % 4 = 0 ∧ ((1970 + i) % 100 ≠ 0 ∨ (1970 + i) % 400 = 0)
             then 366 else 365))
    0)

/-- Decoder configuration: `threshold` (batch size bound) and
`consolidate` (merge type-stable segments). -/
structure Config where
  threshold : Nat
  consolidate : Bool
  deriving DecidableEq

/-- One meta row `(sec_posix, ns, severity, status)`. -/
abbrev Meta := Nat × Nat × Nat × Nat

/-- One emitted batch: value rows and meta rows. -/
abbrev Batch := List (List Nat) × List Meta

/-- Stream context: current header, its year base, the pending records
and the already emitted batches.  The rolling byte buffer is kept apart
(`DecSt`) so that frame handling is independent of buffering. -/
structure DecCore where
  header : Option PayloadInfo
  yearBase : Nat
  pending : List (List Nat × Meta)
  output : List Batch
  deriving DecidableEq

/-- Full decoder state: rolling byte buffer plus stream context. -/
structure DecSt where
  buf : List Nat
  core : DecCore
  deriving DecidableEq

def initCore : DecCore := ⟨none, 0, [], []⟩

def initSt : DecSt := ⟨[], initCore⟩

inductive DecErr
  | malformedFraming
  | malformedHeader
  | typeChange
  | unterminatedFrame
  deriving DecidableEq

/-- Right-pad with zeros / truncate a value row to the header's element
count (§4.3). -/
def padTrunc (v : List Nat) (n : Nat) : List Nat :=
  v.take n ++ List.replicate (n - v.length) 0

/-- Materialize a decoded sample as `(value_row, meta_row)` with
`meta_row = (year_base + sec, ns, severity, status)` (§4.3). -/
def materialize (yb ec : Nat) (s : SampleRec) : List Nat × Meta :=
  (padTrunc [s.valBits] ec, (yb + s.sec, s.ns, s.severity, s.status))

/-- Flush: pack the pending records into one `(values, meta)` batch and
append it to the output; a no-op when nothing is pending (§4.4). -/
def flushPending (c : DecCore) : DecCore :=
  if c.pending.isEmpty then c
  else { c with output := c.output ++ [(c.pending.map (·.1), c.pending.map (·.2))],
                pending := [] }

/-- Modelled from the spec: frame classification of the stream driver
(§4.4 state machine, §4.3 disconnect handling, §9 fallback order).
The first frame must be a header; later frames are tried as a sample
under the current header first, then as a replacement `PayloadInfo`.
A sample is appended to the pending batch, flushing once `threshold`
records are pending.  A replacement header flushes the pending batch
and installs the new context, except that with `consolidate` a header
whose type, element count and PV name match the current one only
updates the year base. -/
def handleFrame (cfg : Config) (c : DecCore) (frame : List Nat) : Except DecErr DecCore :=
  match c.header with
  | none =>
    match decode_PayloadInfo frame with
    | none => .error .malformedHeader
    | some h => .ok { c with header := some h, yearBase := yearBaseSec h.year }
  | some h =>
    match decode_sample h frame with
    | some sm =>
      let c2 := { c with pending := c.pending ++ [materialize c.yearBase h.elementCount sm] }
      if cfg.threshold ≤ c2.pending.length then .ok (flushPending c2) else .ok c2
    | none =>
      match decode_PayloadInfo frame with
      | none => .error .typeChange
      | some h2 =>
        if cfg.consolidate = true ∧ h2.type = h.type ∧ h2.elementCount = h.elementCount
            ∧ h2.pvname = h.pvname then
          .ok { c with header := some h2, yearBase := yearBaseSec h2.year }
        else
          .ok { flushPending c with header := some h2, yearBase := yearBaseSec h2.year }

/-- Modelled from the spec: the non-final part of
`StreamDecoder.process` (§4.4).  Appends the chunk to the rolling
buffer, splits off the complete frames, handles each in order, and
keeps the raw remainder buffered.  Also returns how many frames were
consumed. -/
def feed (cfg : Config) (s : DecSt) (chunk : List Nat) : Except DecErr (DecSt × Nat) :=
  match split (s.buf ++ chunk) with
  | .error _ => .error .malformedFraming
  | .ok (fs, r) =>
    match List.foldlM (handleFrame cfg) s.core fs with
    | .error e => .error e
    | .ok c2 => .ok (⟨r, c2⟩, fs.length)

/-- Modelled from the spec: end of stream (§4.4): a non-empty remainder
is `UnterminatedFrame`; otherwise the pending batch, if any, is
flushed. -/
def finish (p : DecSt × Nat) : Except DecErr (DecSt × Bool) :=
  if p.1.buf.isEmpty then
    .ok (⟨p.1.buf, flushPending p.1.core⟩, decide (0 < p.2) || !p.1.core.pending.isEmpty)
  else .error .unterminatedFrame

/-- Modelled from the spec: `StreamDecoder.process(chunk, last)`.  The
returned boolean is `true` iff the call consumed at least one complete
frame or flushed a pending batch — the behaviour pinned down by
`test_ext.DecodeTester.test_bytebybyte`, which expects `true` exactly on
newline bytes and on the final call of a non-empty stream. -/
def process (cfg : Config) (s : DecSt) (chunk : List Nat) (last : Bool) :
    Except DecErr (DecSt × Bool) :=
  match feed cfg s chunk with
  | .error e => .error e
  | .ok p =>
    match last with
    | true => finish p
    | false => .ok (p.1, decide (0 < p.2))

/-- Feed a byte string one byte per `process` call, `last = true` on the
final byte (an empty stream degenerates to a single final call). -/
def byByte (cfg : Config) (s : DecSt) : List Nat → Except DecErr (DecSt × Bool)
  | [] => process cfg s [] true
  | [b] => process cfg s [b] true
  | b :: rest => match process cfg s [b] false with
      | .error e => .error e
      | .ok p => byByte cfg p.1 rest

/-! ## The bundled fixture, modelled

Modelled from the spec: the test fixture `testdata.pb` (not under the
Python sources) as described by §8 scenario 2 and `test_ext.py`:
22 scalar-double samples of PV `LN-AM{RadMon:1}DoseRate-I` with one
mid-stream header resynchronization after the first 11; the first
sample after the resync is the synthesized disconnect marker
(`severity = 3904`, `ns = 0`, zero-filled value, seconds preserved from
the previous sample).  Sample times are the POSIX metas asserted in
`test_ext.TestDecodeRaw` minus the 2015 year base; values are the
IEEE-754 bit patterns of the decimals listed there. -/

def pvnameLN : List Nat :=
  [76, 78, 45, 65, 77, 123, 82, 97, 100, 77, 111, 110, 58, 49, 125,
   68, 111, 115, 101, 82, 97, 116, 101, 45, 73]

def fixtureHeader : PayloadInfo :=
  ⟨6, pvnameLN, 2015, 1,
   [([69, 71, 85], [109, 82, 47, 104]), ([80, 82, 69, 67], [50])]⟩

def batch1recs : List SampleRec :=
  [⟨3164204, 887015782, 4584304132692975288, 0, 0⟩,
   ⟨3178554, 139922833, 4612068824395714396, 0, 0⟩,
   ⟨3178555, 140245250, 4601778099247172813, 0, 0⟩,
   ⟨3178556, 140024882, 13817944376698155827, 0, 0⟩,
   ⟨3178557, 140228286, 13822628120310621143, 0, 0⟩,
   ⟨3178561, 145268115, 13820106104519293665, 0, 0⟩,
   ⟨3178563, 145419813, 13817584088727966188, 0, 0⟩,
   ⟨3178565, 145170191, 13813801065040974971, 0, 0⟩,
   ⟨3178569, 145384148, 13804793865786233979, 0, 0⟩,
   ⟨3179358, 541449008, 4585925428558828667, 0, 0⟩,
   ⟨3180556, 140990782, 4581421828931458171, 0, 0⟩]

def batch2recs : List SampleRec :=
  [⟨3180556, 0, 0, 3904, 0⟩,
   ⟨3192962, 434265082, 4612091342393851249, 0, 0⟩,
   ⟨3192963, 429269655, 4601597955262077993, 0, 0⟩,
   ⟨3192964, 434134740, 13817584088727966188, 0, 0⟩,
   ⟨3192965, 434277492, 13822808264295715963, 0, 0⟩,
   ⟨3192968, 434441414, 13821727400385147044, 0, 0⟩,
   ⟨3192969, 434220574, 13820106104519293665, 0, 0⟩,
   ⟨3192971, 434272868, 13817584088727966188, 0, 0⟩,
   ⟨3192973, 434366836, 13814521640981354250, 0, 0⟩,
   ⟨3192977, 439388932, 13807676169547751096, 0, 0⟩,
   ⟨3193004, 449503115, 4584304132692975288, 0, 0⟩]

def fixtureFrames : List (List Nat) :=
  encode_PayloadInfo fixtureHeader :: batch1recs.map encode_scalar_double
    ++ encode_PayloadInfo fixtureHeader :: batch2recs.map encode_scalar_double

def fixtureStream : List Nat := join fixtureFrames

/-- Expected value rows and meta rows of a batch of records. -/
def expectBatch (recs : List SampleRec) : Batch :=
  (recs.map (fun sm => [sm.valBits]),
   recs.map (fun sm => (1420070400 + sm.sec, sm.ns, sm.severity, sm.status)))

set_option maxRecDepth 100000

/-! ## `date.makeTimeInterval` (translated from `aaclient/date.py:215-259`) -/

/-- A value returned by `makeTime`: an absolute UTC instant
(`datetime`) or a relative duration (`timedelta`); both are carried in
microseconds. -/
inductive TimeSpec
  | dt (t : Int)
  | td (d : Int)
  deriving DecidableEq

/-- Translated from `makeTimeInterval` (date.py:215-259), taking the two
arguments after `makeTime` resolution (the `None → now` defaulting of
the Python signature happens before this logic):
`rstart`/`rend` are the `isinstance(…, timedelta)` tests, relative
values are anchored, and the pair is swapped so that start ≤ end. -/
def makeTimeInterval (start endv : TimeSpec) (now : Int) : Int × Int :=
  let p :=
    match start, endv with
    | .td ds, .td de => (now + ds, now + de)
    | .td ds, .dt te => (te + ds, te)
    | .dt ts, .td de => if 0 ≤ de then (ts, ts + de) else (ts, now + de)
    | .dt ts, .dt te => (ts, te)
  if p.2 < p.1 then (p.2, p.1) else p

/-- Order a pair so that its first component is the smaller. -/
def orderPair (a b : Int) : Int × Int := if b < a then (b, a) else (a, b)

/-! ## `Appl.plot` (translated from `aaclient/appl.py:122-139`) -/

/-- Translated from `Appl.plot`: the PV name handed to the raw data
request.  `t0`/`tend` are the resolved UTC instants in microseconds and
`count` the target sample count (already defaulted from the
configuration); `delta = abs((Tend-T0).total_seconds())` and
`N = math.ceil(delta / count)`; when `N ≤ 1` or the window is empty the
PV is requested unchanged, otherwise as `caplotbinning_<N>(<pv>)`. -/
def plotPV (t0 tend : Int) (count : Nat) (pv : String) : String :=
  let delta : ℚ := |((tend - t0 : Int) : ℚ)| / 1000000
  let n : Int := ⌈delta / (count : ℚ)⌉
  if n ≤ 1 ∨ delta ≤ 0 then pv
  else "caplotbinning_" ++ toString n ++ "(" ++ pv ++ ")"

/-! ## `Appl.search` (translated from `aaclient/appl.py:32-85` and
`aaclient/util.py:wild2re`) -/

/-- Match modes (from `aaclient/__init__.py`). -/
inductive MatchMode
  | Exact
  | Wildcard
  | Regex
  deriving DecidableEq

/-- The characters escaped by Python 3.7+ `re.escape`. -/
def reSpecialChars : List Char :=
  ['(', ')', '[', ']', Char.ofNat 123, Char.ofNat 125, '?', '*', '+', '-', '|',
   '^', '$', '\\', '.', '&', '~', '#', ' ', '\t', '\n', '\r',
   Char.ofNat 11, Char.ofNat 12]

def reEscapeChar (c : Char) : List Char :=
  if c ∈ reSpecialChars then ['\\', c] else [c]

/-- Python `re.escape`, character by character. -/
def reEscape (s : List Char) : List Char :=
  s.foldr (fun c acc => reEscapeChar c ++ acc) []

/-- Translated from `util.wild2re` / `util._w2e`: `?` becomes `.`, `*`
becomes `.*`, a backslash escape `\X` passes through, anything else is
re-escaped.  (A backslash whose follower the `\\.` token cannot match —
a newline — is left verbatim, as `re.sub` leaves unmatched text.) -/
def wild2re : List Char → List Char
  | [] => []
  | '\\' :: c2 :: rest =>
    if c2 = '\n' then '\\' :: wild2re (c2 :: rest)
    else '\\' :: c2 :: wild2re rest
  | ['\\'] => ['\\']
  | '*' :: rest => '.' :: '*' :: wild2re rest
  | '?' :: rest => '.' :: wild2re rest
  | c :: rest => reEscapeChar c ++ wild2re rest

/-- Translated from `_op_pattern` (appl.py:32-34): `re.match` of
`([a-zA-Z0-9]+_[0-9]+)\(([^)]+)\)` against the pattern (a prefix match,
trailing text ignored), returning `(group 1, group 2)`.  For this
pattern the backtracking search is deterministic: each `+`-group is
followed by a literal that its own character class excludes, so every
group must take its maximal run. -/
def matchOp (s : List Char) : Option (List Char × List Char) :=
  let g1a := s.takeWhile Char.isAlphanum
  let r1 := s.dropWhile Char.isAlphanum
  if g1a.isEmpty then none
  else
    match r1 with
    | '_' :: r2 =>
      let g1b := r2.takeWhile Char.isDigit
      let r3 := r2.dropWhile Char.isDigit
      if g1b.isEmpty then none
      else
        match r3 with
        | '(' :: r4 =>
          let inner := r4.takeWhile (fun c => !(c = ')' : Bool))
          let r5 := r4.dropWhile (fun c => !(c = ')' : Bool))
          if inner.isEmpty then none
          else
            match r5 with
            | ')' :: _ => some (g1a ++ '_' :: g1b, inner)
            | _ => none
        | _ => none
    | _ => none

/-- Translated from appl.py:71-76: the appliance matches the entire
name, so a pattern not visibly anchored gets `.*` added on either
side. -/
def anchorRegex (p : List Char) : List Char :=
  let p1 := if p.take 1 = ['^'] ∨ p.take 2 = ['.', '*'] then p else '.' :: '*' :: p
  if p1.reverse.take 1 = ['$'] ∨ p1.reverse.take 2 = ['*', '.'] then p1
  else p1 ++ ['.', '*']

/-- Translated from `Appl.search` (appl.py:51-85): the PV-name pipeline
around the HTTP query.  `server` abstracts `GET {mgmtURL}/getAllPVs`:
it maps the final regex to the server's list of matching PV names.
Returned is the list of keys of the result mapping, in order.  Note
appl.py:61-63: Exact mode re-escapes and hard-anchors the (stripped)
pattern but resets `opM = None`, so no wrapping happens. -/
def search (pattern : List Char) (mode : MatchMode)
    (server : List Char → List (List Char)) : List (List Char) :=
  let opM := matchOp pattern
  let pattern1 :=
    match opM with
    | some (_, inner) => inner
    | none => pattern
  let step : List Char × Option (List Char × List Char) :=
    match mode with
    | .Exact => ('^' :: reEscape pattern1 ++ ['$'], none)
    | .Wildcard => (wild2re pattern1, opM)
    | .Regex => (pattern1, opM)
  let pattern2 := anchorRegex step.1
  let pvs := server pattern2
  match step.2 with
  | some (g1, _) => pvs.map (fun pv => g1 ++ '(' :: pv ++ [')'])
  | none => pvs

/-! ## `date.makeTime` (translated from `aaclient/date.py:114-204`)

The entire body of `makeTime` runs inside `try: … except: raise
ValueError(f"Unable to process {intime!r} into time")`; the embedding
mirrors that as `makeTimeBody` (which surfaces the distinct exception
kinds the Python body can raise: `ValueError` from `float`/`datetime`,
`KeyError` from the unit table, `NotImplementedError` from the timezone
check, `OverflowError` from `fromtimestamp`) wrapped by `makeTime`.
Numbers are rationals; datetimes are POSIX instants.  The local-timezone
dependent parts (conversion of naive datetimes, the current-day fill)
are abstracted: a naive instant is carried unchanged and the fill
components come from `NowCtx`.  `float("inf")`/`"nan"` and the
`round(…, 6)` float noise of the microsecond field are not modelled;
both only move a failure between two kinds the wrapper treats alike. -/

/-- Timezone of a Python `datetime`: `timezone.utc`, naive (implied
local), or any other zone. -/
inductive TZKind
  | utc
  | naive
  | other
  deriving DecidableEq

/-- The accepted `intime` shapes: `datetime`, `(sec, ns)` tuple,
`int`/`float`, or string. -/
inductive PyVal
  | dt (t : ℚ) (tz : TZKind)
  | tup (s ns : ℚ)
  | num (x : ℚ)
  | str (s : List Char)
  deriving DecidableEq

/-- `makeTime`'s result: a UTC instant (POSIX seconds) or a `timedelta`
(microseconds). -/
inductive MTResult
  | datetime (t : ℚ)
  | delta (us : ℚ)
  deriving DecidableEq

/-- Python exception kinds reachable from `makeTime`. -/
inductive PyErr
  | valueError (named : PyVal)
  | valueErrorBare
  | keyError
  | notImplementedError
  | overflowError
  deriving DecidableEq

/-- The pieces of `now` that `makeTime` consults: the instant (for
`"now"`) and the current day's components used to fill an abbreviated
date. -/
structure NowCtx where
  instant : ℚ
  year : Nat
  month : Nat
  day : Nat
  deriving DecidableEq

def pyIsSpace (c : Char) : Bool :=
  c = ' ' || c = '\t' || c = '\n' || c = '\r' || c = Char.ofNat 11 || c = Char.ofNat 12

def pyStrip (s : List Char) : List Char :=
  ((s.dropWhile pyIsSpace).reverse.dropWhile pyIsSpace).reverse

def pyLower (s : List Char) : List Char := s.map Char.toLower

def digitsToNat (l : List Char) : Nat :=
  l.foldl (fun a c => a * 10 + (c.toNat - 48)) 0

def fracOfDigits (l : List Char) : ℚ :=
  (digitsToNat l : ℚ) / ((10 : ℚ) ^ l.length)

def parseNumRun (s : List Char) : Option (Nat × List Char) :=
  let d := s.takeWhile Char.isDigit
  if d.isEmpty then none else some (digitsToNat d, s.dropWhile Char.isDigit)

/-- The mantissa of a Python float literal: digits with an optional
fractional part (`"12"`, `"12."`, `".5"`, `"12.5"`). -/
def parseUFloat (s : List Char) : Option (ℚ × List Char) :=
  let ip := s.takeWhile Char.isDigit
  let r1 := s.dropWhile Char.isDigit
  match r1 with
  | '.' :: r2 =>
    let fp := r2.takeWhile Char.isDigit
    let r3 := r2.dropWhile Char.isDigit
    if ip.isEmpty && fp.isEmpty then none
    else some ((digitsToNat ip : ℚ) + fracOfDigits fp, r3)
  | _ => if ip.isEmpty then none else some ((digitsToNat ip : ℚ), r1)

/-- Python `float()` on an already-lowercased string: optional
whitespace and sign, mantissa, optional exponent. -/
def parseFloat (s0 : List Char) : Option ℚ :=
  let s1 := pyStrip s0
  let sgn : ℚ × List Char :=
    match s1 with
    | '-' :: r => (-1, r)
    | '+' :: r => (1, r)
    | _ => (1, s1)
  match parseUFloat sgn.2 with
  | none => none
  | some (m, r) =>
    match r with
    | [] => some (sgn.1 * m)
    | 'e' :: r2 =>
      let esgn : Int × List Char :=
        match r2 with
        | '-' :: rr => (-1, rr)
        | '+' :: rr => (1, rr)
        | _ => (1, r2)
      let ed := esgn.2.takeWhile Char.isDigit
      let r4 := esgn.2.dropWhile Char.isDigit
      if ed.isEmpty || !r4.isEmpty then none
      else some (sgn.1 * m * (10 : ℚ) ^ (esgn.1 * (digitsToNat ed : Int)))
    | _ => none

/-- The `[\sT]` class of the date regexes (note the capital `T`: the
input has been lowercased beforehand, so a literal ISO `T` never
matches). -/
def isSpT (c : Char) : Bool := pyIsSpace c || c = 'T'

/-- The captured time-of-day components of `_tupats`. -/
structure TimeComps where
  hour : Nat
  minute : Nat
  second : Option Nat
  frac : ℚ
  zulu : Bool
  deriving DecidableEq

/-- The `H:M[:S[.F]]\s*[zZ]?` tail of `_tupats` as a prefix match;
trailing unmatched text is ignored, and the optional groups back off
independently exactly as the regex does. -/
def parseTimePart (s : List Char) : Option TimeComps :=
  match parseNumRun s with
  | none => none
  | some (hh, r1) =>
    match r1 with
    | ':' :: r2 =>
      match parseNumRun r2 with
      | none => none
      | some (mm, r3) =>
        let secPart : Option Nat × ℚ × List Char :=
          match r3 with
          | ':' :: r5 =>
            match parseNumRun r5 with
            | none => (none, 0, r3)
            | some (ss, r6) =>
              match r6 with
              | '.' :: r7 =>
                let fd := r7.takeWhile Char.isDigit
                let r8 := r7.dropWhile Char.isDigit
                if fd.isEmpty then (some ss, 0, r6)
                else (some ss, fracOfDigits fd, r8)
              | _ => (some ss, 0, r6)
          | _ => (none, 0, r3)
        let r5 := secPart.2.2.dropWhile pyIsSpace
        let zul := match r5 with | 'z' :: _ => true | _ => false
        some ⟨hh, mm, secPart.1, secPart.2.1, zul⟩
    | _ => none

/-- The optional `[year sep] month sep day [\sT]+` date prefix of
`_tupats`, one alternative (`withYear`) at a time. -/
def parseDatePrefix (sep : Char) (withYear : Bool) (s : List Char) :
    Option (Option Nat × Nat × Nat × List Char) :=
  let step := fun (s : List Char) =>
    match parseNumRun s with
    | none => none
    | some (n, r) =>
      match r with
      | c :: r2 => if c = sep then some (n, r2) else none
      | [] => none
  let first :=
    if withYear then
      match step s with
      | none => none
      | some (y, r) => some (some y, r)
    else some (none, s)
  match first with
  | none => none
  | some (yOpt, r1) =>
    match step r1 with
    | none => none
    | some (mo, r2) =>
      match parseNumRun r2 with
      | none => none
      | some (dy, r3) =>
        let ws := r3.takeWhile isSpT
        let r4 := r3.dropWhile isSpT
        if ws.isEmpty then none else some (yOpt, mo, dy, r4)

/-- One of the two `_tupats` regexes (`sep` is `/` or `-`), matched as a
prefix with the regex's greedy alternative order: date-with-year, then
date-without-year, then bare time of day. -/
def parseAbsPat (sep : Char) (s0 : List Char) :
    Option (Option Nat × Option Nat × Option Nat × TimeComps) :=
  let s := s0.dropWhile pyIsSpace
  let withDate := fun (withYear : Bool) =>
    match parseDatePrefix sep withYear s with
    | some (y, mo, dy, r) =>
      match parseTimePart r with
      | some tc => some (y, some mo, some dy, tc)
      | none => none
    | none => none
  match withDate true with
  | some v => some v
  | none =>
    match withDate false with
    | some v => some v
    | none =>
      match parseTimePart s with
      | some tc => some (none, none, none, tc)
      | none => none

def isLeapYear (y : Nat) : Bool :=
  decide (y % 4 = 0) && (decide (y % 100 ≠ 0) || decide (y % 400 = 0))

def daysInMonth (y m : Nat) : Nat :=
  if m = 2 then (if isLeapYear y then 29 else 28)
  else if m = 4 ∨ m = 6 ∨ m = 9 ∨ m = 11 then 30
  else 31

/-- Days from 1970-01-01 to the given civil date (proleptic Gregorian,
truncated integer division as in the reference algorithm). -/
def daysFromCivil (y m d : Int) : Int :=
  let y2 := if m ≤ 2 then y - 1 else y
  let era := (if 0 ≤ y2 then y2 else y2 - 399) / 400
  let yoe := y2 - era * 400
  let mp := (m + 9) % 12
  let doy := (153 * mp + 2) / 5 + d - 1
  let doe := yoe * 365 + yoe / 4 - yoe / 100 + doy
  era * 146097 + doe - 719468

/-- The `datetime(**M).astimezone(timezone.utc)` step of
date.py:168-183: missing year/month/day filled from the current day,
missing seconds zero, components validated exactly as the `datetime`
constructor (`ValueError` on out-of-range), then turned into a POSIX
instant (the local-offset of a naive result abstracted to zero). -/
def buildDatetime (y mo dy : Option Nat) (tc : TimeComps) (now : NowCtx) :
    Except PyErr MTResult :=
  let yy := y.getD now.year
  let mm := mo.getD now.month
  let dd := dy.getD now.day
  let ss := tc.second.getD 0
  if 1 ≤ yy ∧ yy ≤ 9999 ∧ 1 ≤ mm ∧ mm ≤ 12 ∧ 1 ≤ dd ∧ dd ≤ daysInMonth yy mm
      ∧ tc.hour ≤ 23 ∧ tc.minute ≤ 59 ∧ ss ≤ 59 then
    .ok (.datetime
      (((86400 * daysFromCivil yy mm dd
         + 3600 * (tc.hour : Int) + 60 * (tc.minute : Int) + (ss : Int) : Int) : ℚ)
        + tc.frac))
  else .error .valueErrorBare

/-- `datetime.fromtimestamp(x, timezone.utc)`: `OverflowError` outside
the years 1–9999. -/
def fromtimestampQ (x : ℚ) : Except PyErr MTResult :=
  if x < -62135596800 ∨ 253402300800 ≤ x then .error .overflowError
  else .ok (.datetime x)

/-- `re.split(r'\s+|(?<=[0-9.])(?=[a-z])', s)`: split at whitespace runs
and at a digit/dot–letter boundary. -/
def relSplitAux (sk : Bool) (cur : List Char) : List Char → List (List Char)
  | [] => [cur.reverse]
  | c :: rest =>
    if pyIsSpace c then
      if sk then relSplitAux true [] rest
      else cur.reverse :: relSplitAux true [] rest
    else
      if (c.isDigit || c = '.') &&
          (match rest with
           | c2 :: _ => decide ('a' ≤ c2) && decide (c2 ≤ 'z')
           | [] => false) then
        (c :: cur).reverse :: relSplitAux false [] rest
      else relSplitAux false (c :: cur) rest

/-- The `_units` table, as a microsecond multiplier. -/
def unitsLookup (u : List Char) : Option ℚ :=
  if u = "us".toList then some 1
  else if u = "ms".toList then some 1000
  else if u = "s".toList ∨ u = "sec".toList ∨ u = "secs".toList then some 1000000
  else if u = "m".toList ∨ u = "min".toList ∨ u = "mins".toList then some 60000000
  else if u = "h".toList ∨ u = "hrs".toList ∨ u = "hours".toList then some 3600000000
  else if u = "d".toList ∨ u = "days".toList then some 86400000000
  else if u = "w".toList ∨ u = "week".toList ∨ u = "weeks".toList then some 604800000000
  else none

/-- The `(value, unit)` accumulation loop of date.py:193-198:
`KeyError` on an unknown unit, `ValueError` from `float` on a
non-numeric value. -/
def accumUnits : List (List Char) → Except PyErr ℚ
  | [] => .ok 0
  | [_] => .error .valueErrorBare
  | v :: u :: rest =>
    match unitsLookup u with
    | none => .error .keyError
    | some mult =>
      match parseFloat v with
      | none => .error .valueErrorBare
      | some x =>
        match accumUnits rest with
        | .error e => .error e
        | .ok acc => .ok (acc + x * mult)

/-- The body of `makeTime` inside the `try` (date.py:134-201), raising
the Python body's own exception kinds. -/
def makeTimeBody (intime : PyVal) (now : NowCtx) : Except PyErr MTResult :=
  match intime with
  | .dt t tz =>
    match tz with
    | .naive => .ok (.datetime t)
    | .utc => .ok (.datetime t)
    | .other => .error .notImplementedError
  | .tup s ns => fromtimestampQ (s + ns / 1000000000)
  | .num x => fromtimestampQ x
  | .str s0 =>
    let s := pyLower (pyStrip s0)
    if s = "now".toList then .ok (.datetime now.instant)
    else
      match parseAbsPat '/' s with
      | some (y, mo, dy, tc) => buildDatetime y mo dy tc now
      | none =>
        match parseAbsPat '-' s with
        | some (y, mo, dy, tc) => buildDatetime y mo dy tc now
        | none =>
          let parts := relSplitAux false [] s
          if 1 < parts.length then
            if parts.length % 2 ≠ 0 then .error .valueErrorBare
            else
              match accumUnits parts with
              | .error e => .error e
              | .ok us => .ok (.delta us)
          else
            match parseFloat s with
            | none => .error .valueErrorBare
            | some x => fromtimestampQ x

/-- The value named by the wrapper's message: the `intime` local at
raise time, i.e. the stripped and lowercased string for string
inputs. -/
def normalizedName : PyVal → PyVal
  | .str s => .str (pyLower (pyStrip s))
  | v => v

/-- Translated from `makeTime` (date.py:114-204): the whole body runs in
a `try` whose bare `except` re-raises everything as
`ValueError(f"Unable to process {intime!r} into time")`. -/
def makeTime (intime : PyVal) (now : NowCtx) : Except PyErr MTResult :=
  match makeTimeBody intime now with
  | .ok r => .ok r
  | .error _ => .error (.valueError (normalizedName intime))

/-! ## Theorems -/

theorem isError_map {ε α β : Type} (f : α → β) (m : Except ε α) :
    isError (m.map f) = isError m := by cases m <;> rfl

theorem split_nil : split [] = .ok ([], []) := by
  rw [split.eq_def]

theorem split_cons_10 (rest : List Nat) :
    split (10 :: rest) = (split rest).map (fun p => ([] :: p.1, p.2)) := by
  rw [split.eq_def]
  simp

theorem split_cons_esc (b : Nat) (rest : List Nat) (h : b = 1 ∨ b = 2 ∨ b = 3) :
    split (27 :: b :: rest) = (split rest).map (consEsc b) := by
  rw [split.eq_def]
  simp [h]

theorem split_cons_bad (b : Nat) (rest : List Nat) (h : ¬(b = 1 ∨ b = 2 ∨ b = 3)) :
    split (27 :: b :: rest) = .error () := by
  rw [split.eq_def]
  simp [h]

theorem split_cons_plain (a : Nat) (rest : List Nat) (h10 : ¬a = 10) (h27 : ¬a = 27) :
    split (a :: rest) = (split rest).map (consB a) := by
  rw [split.eq_def]
  simp [h10, h27]

theorem split_singleton_esc : split [27] = .ok ([], [27]) := by
  rw [split.eq_def]
  simp

theorem hasBadEscape_cons_esc (b : Nat) (l : List Nat) (h : b = 1 ∨ b = 2 ∨ b = 3) :
    hasBadEscape (27 :: b :: l) = hasBadEscape (b :: l) := by
  have h1 : (decide (b = 1) || decide (b = 2) || decide (b = 3)) = true := by
    rcases h with h | h | h <;> subst h <;> decide
  simp [hasBadEscape, h1]

/-- Splitting is incremental: splitting `x ++ y` in one go agrees with
splitting `x`, carrying the raw remainder over, and splitting the rest. -/
theorem split_append (x y : List Nat) :
    split (x ++ y) = (split x).bind (thenSplit y) := by
  induction x using split.induct with
  | case1 =>
      rw [split_nil]
      cases h : split y <;>
        simp [thenSplit, Except.bind, Except.map, h]
  | case2 rest ih =>
      simp only [List.cons_append, split_cons_10, ih]
      cases h : split rest with
      | error e => simp [Except.bind, Except.map]
      | ok p =>
          obtain ⟨fs, r⟩ := p
          cases h2 : split (r ++ y) <;>
            simp [thenSplit, Except.bind, Except.map, h2]
  | case3 =>
      rw [show ([27] : List Nat) ++ y = 27 :: y from rfl, split_singleton_esc]
      cases h : split (27 :: y) <;>
        simp [thenSplit, Except.bind, Except.map, h]
  | case4 b rest2 hb _h ih =>
      simp only [List.cons_append, split_cons_esc _ _ hb, ih]
      cases h : split rest2 with
      | error e => simp [Except.bind, Except.map]
      | ok p =>
          obtain ⟨fs, r⟩ := p
          cases fs with
          | cons f fs =>
              cases h2 : split (r ++ y) <;>
                simp [thenSplit, Except.bind, Except.map, consEsc, h2]
          | nil =>
              simp only [thenSplit, Except.bind, Except.map, consEsc]
              simp only [List.nil_append, List.cons_append, split_cons_esc _ _ hb]
              cases h2 : split (r ++ y) <;> simp [Except.map, consEsc, h2]
  | case5 b rest2 hb _h =>
      simp only [List.cons_append, split_cons_bad _ _ hb]
      rfl
  | case6 a rest2 h10 h27 ih =>
      simp only [List.cons_append, split_cons_plain _ _ h10 h27, ih]
      cases h : split rest2 with
      | error e => simp [Except.bind, Except.map]
      | ok p =>
          obtain ⟨fs, r⟩ := p
          cases fs with
          | cons f fs =>
              cases h2 : split (r ++ y) <;>
                simp [thenSplit, Except.bind, Except.map, consB, h2]
          | nil =>
              simp only [thenSplit, Except.bind, Except.map, consB]
              simp only [List.nil_append, List.cons_append,
                split_cons_plain _ _ h10 h27]
              cases h2 : split (r ++ y) <;> simp [Except.map, consB, h2]

theorem hasBadEscape_cons_ne (b : Nat) (l : List Nat) (h : ¬b = 27) :
    hasBadEscape (b :: l) = hasBadEscape l := by
  cases l with
  | nil => simp [hasBadEscape]
  | cons c l2 => simp [hasBadEscape, h]

/-- Newline-free, well-escaped bytes split to an empty frame list with
the input returned verbatim as remainder. -/
theorem split_noNewline (r : List Nat) (h10 : 10 ∉ r) (hbad : hasBadEscape r = false) :
    split r = .ok ([], r) := by
  induction r using split.induct with
  | case1 => exact split_nil
  | case2 rest _ih => exact absurd (List.mem_cons_self _ _) h10
  | case3 => exact split_singleton_esc
  | case4 b rest2 hb _h ih =>
      have hb27 : ¬b = 27 := by rcases hb with h | h | h <;> omega
      have h10b : 10 ∉ rest2 := fun hm => h10 (by simp [hm])
      have hbad2 : hasBadEscape rest2 = false := by
        rwa [hasBadEscape_cons_esc _ _ hb, hasBadEscape_cons_ne _ _ hb27] at hbad
      rw [split_cons_esc _ _ hb, ih h10b hbad2]
      rfl
  | case5 b rest2 hb _h =>
      exfalso
      have h1 : ¬b = 1 := fun h => hb (Or.inl h)
      have h2 : ¬b = 2 := fun h => hb (Or.inr (Or.inl h))
      have h3 : ¬b = 3 := fun h => hb (Or.inr (Or.inr h))
      simp [hasBadEscape, h1, h2, h3] at hbad
  | case6 a rest2 ha10 ha27 ih =>
      have h10b : 10 ∉ rest2 := fun hm => h10 (by simp [hm])
      have hbad2 : hasBadEscape rest2 = false := by
        rwa [hasBadEscape_cons_ne _ _ ha27] at hbad
      rw [split_cons_plain _ _ ha10 ha27, ih h10b hbad2]
      rfl

/-- One escaped frame followed by its terminator prepends the decoded
frame to the split of the rest of the stream. -/
theorem split_escFrame (f t : List Nat) :
    split (escFrame f ++ 10 :: t) = (split t).map (fun p => (f :: p.1, p.2)) := by
  induction f with
  | nil =>
      cases h : split t <;> simp [escFrame, split_cons_10, Except.map, h]
  | cons c f ih =>
      have hstep : escFrame (c :: f) = escByte c ++ escFrame f := rfl
      rw [hstep, List.append_assoc]
      by_cases h27 : c = 27
      · subst h27
        rw [show escByte 27 = [27, 1] from rfl]
        simp only [List.cons_append, List.nil_append,
          split_cons_esc 1 _ (Or.inl rfl), ih]
        cases h : split t <;> simp [Except.map, consEsc, unesc, h]
      · by_cases h10 : c = 10
        · subst h10
          rw [show escByte 10 = [27, 2] from rfl]
          simp only [List.cons_append, List.nil_append,
            split_cons_esc 2 _ (Or.inr (Or.inl rfl)), ih]
          cases h : split t <;> simp [Except.map, consEsc, unesc, h]
        · by_cases h13 : c = 13
          · subst h13
            rw [show escByte 13 = [27, 3] from rfl]
            simp only [List.cons_append, List.nil_append,
              split_cons_esc 3 _ (Or.inr (Or.inr rfl)), ih]
            cases h : split t <;> simp [Except.map, consEsc, unesc, h]
          · rw [show escByte c = [c] from by simp [escByte, h27, h10, h13]]
            simp only [List.cons_append, List.nil_append,
              split_cons_plain _ _ h10 h27, ih]
            cases h : split t <;> simp [Except.map, consB, h]

/-- Claim C5 (corrected): `split` undoes `join` and hands back the
trailing partial frame, provided the trailing bytes `r` contain no
newline and no malformed escape pair.  (The claim as frozen omits the
second proviso; see the counterexample.) -/
theorem split_join_roundtrip (L : List (List Nat)) (r : List Nat)
    (h10 : 10 ∉ r) (hbad : hasBadEscape r = false) :
    split (join L ++ r) = .ok (L, r) := by
  induction L with
  | nil => exact split_noNewline r h10 hbad
  | cons f L ih =>
      have hj : join (f :: L) ++ r = escFrame f ++ 10 :: (join L ++ r) := by
        rw [show join (f :: L) = escFrame f ++ 10 :: join L from rfl]
        simp
      rw [hj, split_escFrame, ih]
      rfl

/-- Witness for C5: a concrete frame list and newline-free trailer
round-trip through `join` then `split`. -/
theorem split_join_roundtrip_witness :
    10 ∉ [119] ∧ hasBadEscape [119] = false ∧
      split (join [[104, 27, 105]] ++ [119]) = .ok ([[104, 27, 105]], [119]) :=
  ⟨by decide, by decide, split_join_roundtrip [[104, 27, 105]] [119] (by decide) (by decide)⟩

/-- Counterexample for C5 as frozen: the trailer `[0x1B, 0x00]` contains
no newline byte, yet `split (join [] ++ [0x1B, 0x00])` reports malformed
framing instead of returning `([], [0x1B, 0x00])`. -/
theorem split_join_roundtrip_cex :
    10 ∉ [27, 0] ∧ ¬split (join [] ++ [27, 0]) = .ok ([], [27, 0]) := by
  refine ⟨by decide, fun h => ?_⟩
  rw [show split (join [] ++ [27, 0]) = .error () from rfl] at h
  exact Except.noConfusion h

/-- Claim C6 (confirmed): `split` fails exactly when some `0x1B` byte of
the input is immediately followed by a byte other than `0x01`, `0x02`,
`0x03` (the terminating newline of a frame included); a trailing lone
`0x1B` is not an error, it is carried in the remainder. -/
theorem split_error_iff_badEscape (bs : List Nat) :
    isError (split bs) = hasBadEscape bs := by
  induction bs using split.induct with
  | case1 => rw [split_nil]; simp [isError, hasBadEscape]
  | case2 rest ih =>
      rw [split_cons_10, isError_map, ih, hasBadEscape_cons_ne 10 rest (by decide)]
  | case3 => rw [split_singleton_esc]; simp [isError, hasBadEscape]
  | case4 b rest2 hb _h ih =>
      have hb27 : ¬b = 27 := by rcases hb with h | h | h <;> omega
      rw [split_cons_esc _ _ hb, isError_map, ih, hasBadEscape_cons_esc _ _ hb,
        hasBadEscape_cons_ne _ _ hb27]
  | case5 b rest2 hb _h =>
      have h1 : ¬b = 1 := fun h => hb (Or.inl h)
      have h2 : ¬b = 2 := fun h => hb (Or.inr (Or.inl h))
      have h3 : ¬b = 3 := fun h => hb (Or.inr (Or.inr h))
      rw [split_cons_bad _ _ hb]
      simp [isError, hasBadEscape, h1, h2, h3]
  | case6 a rest2 ha10 ha27 ih =>
      rw [split_cons_plain _ _ ha10 ha27, isError_map, ih,
        hasBadEscape_cons_ne _ _ ha27]

theorem toOption_ok {ε α : Type} (e : Except ε α) (v : α) (h : e.toOption = some v) :
    e = .ok v := by
  cases e with
  | error err => simp [Except.toOption] at h
  | ok a => rw [show a = v from by simpa [Except.toOption] using h]

theorem toOption_ok_eq {ε α : Type} (a : α) :
    (Except.ok a : Except ε α).toOption = some a := rfl

theorem toOption_error_eq {ε α : Type} (e : ε) :
    (Except.error e : Except ε α).toOption = none := rfl

/-- Unfolding of `process` with `last = false`. -/
theorem process_false_eq (cfg : Config) (s : DecSt) (chunk : List Nat) :
    process cfg s chunk false =
      match feed cfg s chunk with
      | .error e => .error e
      | .ok p => .ok (p.1, decide (0 < p.2)) := rfl

/-- Unfolding of `process` with `last = true`. -/
theorem process_true_eq (cfg : Config) (s : DecSt) (chunk : List Nat) :
    process cfg s chunk true =
      match feed cfg s chunk with
      | .error e => .error e
      | .ok p => finish p := rfl

theorem except_bind_ok {ε α β : Type} (a : α) (f : α → Except ε β) :
    ((Except.ok a : Except ε α) >>= f) = f a := rfl

theorem except_bind_error {ε α β : Type} (e : ε) (f : α → Except ε β) :
    ((Except.error e : Except ε α) >>= f) = (.error e : Except ε β) := rfl

/-- Feeding (without `last`) is compositional in the chunking: feeding
`a ++ b` agrees — error cases squashed to `none` — with feeding `a`
then `b`, the frame counts adding up. -/
theorem feed_append_opt (cfg : Config) (s : DecSt) (a b : List Nat) :
    (feed cfg s (a ++ b)).toOption =
      (feed cfg s a).toOption.bind
        (fun p => ((feed cfg p.1 b).toOption).map (fun q => (q.1, p.2 + q.2))) := by
  simp only [feed]
  rw [← List.append_assoc, split_append (s.buf ++ a) b]
  cases h1 : split (s.buf ++ a) with
  | error e => rfl
  | ok p1 =>
    obtain ⟨f1, r1⟩ := p1
    simp only [Except.bind, thenSplit]
    cases h2 : split (r1 ++ b) with
    | error e =>
        cases hF1 : List.foldlM (handleFrame cfg) s.core f1 with
        | error e2 => simp [Except.toOption, Except.map]
        | ok c1 => simp [Except.toOption, Except.map, h2]
    | ok p2 =>
        obtain ⟨f2, r2⟩ := p2
        simp only [Except.map, List.foldlM_append]
        cases hF1 : List.foldlM (handleFrame cfg) s.core f1 with
        | error e2 => simp [Except.toOption, except_bind_error]
        | ok c1 =>
            simp only [except_bind_ok]
            cases hF2 : List.foldlM (handleFrame cfg) c1 f2 with
            | error e3 => simp [Except.toOption, h2, hF2]
            | ok c2 => simp [Except.toOption, h2, hF2, List.length_append]

/-- The final state produced by `finish` does not depend on the frame
count (only the returned boolean does). -/
theorem finish_state_eq (st : DecSt) (n m : Nat) :
    (finish (st, n)).toOption.map (·.1) = (finish (st, m)).toOption.map (·.1) := by
  by_cases h : st.buf.isEmpty <;> simp [finish, h, Except.toOption]

/-- Feeding any byte string one byte at a time reaches the same final
state (errors squashed to `none`) as one `process` call with
`last = true`. -/
theorem byByte_toOption (cfg : Config) (bytes : List Nat) : ∀ (s : DecSt),
    (byByte cfg s bytes).toOption.map (·.1) =
      (process cfg s bytes true).toOption.map (·.1) := by
  induction bytes with
  | nil => intro s; rfl
  | cons b rest ih =>
    intro s
    cases rest with
    | nil => rfl
    | cons c rest2 =>
      have hsplit := feed_append_opt cfg s [b] (c :: rest2)
      rw [show [b] ++ (c :: rest2) = b :: c :: rest2 from rfl] at hsplit
      have hby : byByte cfg s (b :: c :: rest2)
          = (match process cfg s [b] false with
             | .error e => .error e
             | .ok p => byByte cfg p.1 (c :: rest2)) := rfl
      cases hb1 : feed cfg s [b] with
      | error e =>
        have hpb : process cfg s [b] false = .error e := by
          rw [process_false_eq, hb1]
        have hbv : byByte cfg s (b :: c :: rest2) = .error e := by
          rw [hby, hpb]
        rw [hbv]
        rw [hb1, toOption_error_eq, Option.none_bind] at hsplit
        rw [process_true_eq]
        cases hfull : feed cfg s (b :: c :: rest2) with
        | error e2 => rfl
        | ok q => rw [hfull, toOption_ok_eq] at hsplit; exact absurd hsplit (by simp)
      | ok p =>
        have hpb : process cfg s [b] false = .ok (p.1, decide (0 < p.2)) := by
          rw [process_false_eq, hb1]
        have hbv : byByte cfg s (b :: c :: rest2) = byByte cfg p.1 (c :: rest2) := by
          rw [hby, hpb]
        rw [hbv]
        rw [hb1, toOption_ok_eq, Option.some_bind] at hsplit
        rw [ih p.1, process_true_eq cfg p.1 (c :: rest2),
          process_true_eq cfg s (b :: c :: rest2)]
        cases hr : feed cfg p.1 (c :: rest2) with
        | error e =>
          rw [hr, toOption_error_eq, Option.map_none'] at hsplit
          cases hfull : feed cfg s (b :: c :: rest2) with
          | error e2 => rfl
          | ok q => rw [hfull, toOption_ok_eq] at hsplit; exact absurd hsplit (by simp)
        | ok q =>
          rw [hr, toOption_ok_eq, Option.map_some'] at hsplit
          rw [toOption_ok _ _ hsplit]
          exact finish_state_eq q.1 q.2 (p.2 + q.2)

-- Cross-checks: the model reproduces test_ext.TestDecodeRaw, TestDecodeJoin and
-- TestDecodeSplit on the modelled fixture.
example :
    (process ⟨100, false⟩ initSt fixtureStream true).toOption.map
        (fun p => (p.1.core.output, p.2))
      = some ([expectBatch batch1recs, expectBatch batch2recs], true) := rfl

example :
    (process ⟨100, true⟩ initSt fixtureStream true).toOption.map
        (fun p => p.1.core.output)
      = some [expectBatch (batch1recs ++ batch2recs)] := rfl

example :
    (process ⟨6, false⟩ initSt fixtureStream true).toOption.map
        (fun p => p.1.core.output.map (fun bt => bt.2.length))
      = some [6, 5, 6, 5] := rfl

/-- A `feed` call that consumed zero frames leaves the stream context
untouched. -/
theorem feed_zero_frames (cfg : Config) (s : DecSt) (chunk : List Nat) (st : DecSt)
    (h : feed cfg s chunk = .ok (st, 0)) : st.core = s.core := by
  cases hs : split (s.buf ++ chunk) with
  | error e => simp [feed, hs] at h
  | ok p =>
    obtain ⟨fs, r⟩ := p
    cases hF : List.foldlM (handleFrame cfg) s.core fs with
    | error e => simp [feed, hs, hF] at h
    | ok c2 =>
      simp only [feed, hs, hF, Except.ok.injEq, Prod.mk.injEq] at h
      obtain ⟨h1, hlen⟩ := h
      have hfs : fs = [] := List.length_eq_zero.mp hlen
      subst hfs
      injection hF with hc
      rw [← h1]
      exact hc.symm

/-- Claim C1 (corrected): a `process` call that returns `false` has made
no new batch available; equivalently, any call that appends a batch to
the output returns `true`.  (The "only if" half of the claim's iff is
false: a call may return `true` after consuming frames without
completing a batch — see the counterexample.) -/
theorem process_false_no_new_batch (cfg : Config) (s : DecSt) (chunk : List Nat)
    (last : Bool) (s2 : DecSt)
    (h : process cfg s chunk last = .ok (s2, false)) :
    s2.core.output = s.core.output := by
  cases hf : feed cfg s chunk with
  | error e =>
    have hpv : process cfg s chunk last = .error e := by
      cases last <;> simp only [process, hf]
    rw [hpv] at h
    exact absurd h (by simp)
  | ok p =>
    cases last with
    | false =>
      have hpv : process cfg s chunk false = .ok (p.1, decide (0 < p.2)) := by
        simp only [process, hf]
      rw [hpv] at h
      simp only [Except.ok.injEq, Prod.mk.injEq] at h
      obtain ⟨h1, h2⟩ := h
      have hn : p.2 = 0 := by
        have := of_decide_eq_false h2
        omega
      have hcore := feed_zero_frames cfg s chunk p.1 (by rw [hf, ← hn])
      rw [← h1]
      exact congrArg DecCore.output hcore
    | true =>
      have hpv : process cfg s chunk true = finish p := by
        simp only [process, hf]
      rw [hpv] at h
      by_cases hb : p.1.buf.isEmpty = true
      · simp only [finish] at h
        rw [if_pos hb] at h
        simp only [Except.ok.injEq, Prod.mk.injEq, Bool.or_eq_false_iff,
          Bool.not_eq_false'] at h
        obtain ⟨h1, hdec, hpend⟩ := h
        have hn : p.2 = 0 := by
          have := of_decide_eq_false hdec
          omega
        have hcore := feed_zero_frames cfg s chunk p.1 (by rw [hf, ← hn])
        rw [← h1]
        show (flushPending p.1.core).output = s.core.output
        unfold flushPending
        rw [if_pos hpend]
        exact congrArg DecCore.output hcore
      · simp only [finish] at h
        rw [if_neg hb] at h
        exact absurd h (by simp)

/-- Witness for C1: a call that only buffers bytes (no complete frame)
returns `false` and adds no batch. -/
theorem process_false_no_new_batch_witness :
    process ⟨100, false⟩ initSt [104] false = .ok (⟨[104], initCore⟩, false) ∧
      (⟨[104], initCore⟩ : DecSt).core.output = initSt.core.output :=
  ⟨rfl, process_false_no_new_batch ⟨100, false⟩ initSt [104] false ⟨[104], initCore⟩ rfl⟩

/-- Counterexample for C1 as frozen: the call that consumes the fixture
header frame returns `true`, yet the output queue stays empty — the call
made no new batch available, so "returns true iff a new batch became
available" fails. -/
theorem process_true_iff_new_batch_cex :
    (process ⟨100, false⟩ initSt (join [encode_PayloadInfo fixtureHeader]) false).toOption.map
        (fun p => (p.2, p.1.core.output))
      = some (true, ([] : List Batch)) := rfl

/-- Claim C2 (confirmed): feeding the whole stream in one `process` call
with `last = true` and feeding it one byte per call (`last = true` on
the final byte) reach the same decoder state — in particular the same
sequence of emitted `(values, meta)` batches — and fail together on
non-well-formed streams. -/
theorem process_bytewise_equiv (cfg : Config) (stream : List Nat) :
    ((byByte cfg initSt stream).toOption.map (fun p => p.1) =
      (process cfg initSt stream true).toOption.map (fun p => p.1)) ∧
    ((byByte cfg initSt stream).toOption.map (fun p => p.1.core.output) =
      (process cfg initSt stream true).toOption.map (fun p => p.1.core.output)) := by
  refine ⟨byByte_toOption cfg stream initSt, ?_⟩
  have h := byByte_toOption cfg stream initSt
  cases hb : (byByte cfg initSt stream).toOption with
  | none =>
    cases hp : (process cfg initSt stream true).toOption with
    | none => rfl
    | some v => rw [hb, hp] at h; simp at h
  | some v =>
    cases hp : (process cfg initSt stream true).toOption with
    | none => rw [hb, hp] at h; simp at h
    | some w =>
      rw [hb, hp] at h
      simp only [Option.map_some', Option.some.injEq] at h
      simp only [Option.map_some', Option.some.injEq, h]

/-- Claim C3 (confirmed): decoding the modelled fixture stream with
`threshold = 100, consolidate = false` emits exactly two batches of 11
samples each, and the first meta row of the second batch is the
synthesized disconnect marker `(1423250956, 0, 3904, 0)` — severity
3904, ns 0 — with a zero-filled value row; its seconds equal the
preceding sample's (the last meta row of the first batch). -/
theorem decode_fixture_raw :
    ((process ⟨100, false⟩ initSt fixtureStream true).toOption.map
        (fun p => p.1.core.output)
      = some [expectBatch batch1recs, expectBatch batch2recs]) ∧
    (expectBatch batch1recs).2.length = 11 ∧
    (expectBatch batch2recs).2.length = 11 ∧
    (expectBatch batch2recs).2.head? = some (1423250956, 0, 3904, 0) ∧
    (expectBatch batch2recs).1.head? = some [0] ∧
    (expectBatch batch1recs).2.getLast? = some (1423250956, 140990782, 0, 0) :=
  ⟨rfl, rfl, rfl, rfl, rfl, rfl⟩

/-- Claim C4 (confirmed): with `consolidate = true`, a mid-stream header
whose type, element count and PV name match the current one does not
start a new batch — the year base is updated and pending records and
output are untouched — and on the modelled fixture with
`threshold = 100` a single batch of all 22 samples is emitted. -/
theorem decode_fixture_consolidate :
    ((process ⟨100, true⟩ initSt fixtureStream true).toOption.map
        (fun p => p.1.core.output)
      = some [expectBatch (batch1recs ++ batch2recs)]) ∧
    (expectBatch (batch1recs ++ batch2recs)).2.length = 22 ∧
    (∀ (cfg : Config) (c : DecCore) (h h2 : PayloadInfo) (frame : List Nat),
      cfg.consolidate = true →
      c.header = some h →
      decode_sample h frame = none →
      decode_PayloadInfo frame = some h2 →
      h2.type = h.type →
      h2.elementCount = h.elementCount →
      h2.pvname = h.pvname →
      handleFrame cfg c frame =
        .ok { c with header := some h2, yearBase := yearBaseSec h2.year }) := by
  refine ⟨rfl, rfl, ?_⟩
  intro cfg c h h2 frame hcons hhdr hsm hpi hty hec hpv
  simp [handleFrame, hhdr, hsm, hpi, hcons, hty, hec, hpv]

/-- Witness for C4: on a concrete mid-stream state, the fixture's resync
header under `consolidate = true` leaves pending and output intact and
refreshes the year base. -/
theorem decode_fixture_consolidate_witness :
    handleFrame ⟨100, true⟩ ⟨some fixtureHeader, 0, [], []⟩
        (encode_PayloadInfo fixtureHeader) =
      .ok ⟨some fixtureHeader, yearBaseSec 2015, [], []⟩ :=
  decode_fixture_consolidate.2.2 ⟨100, true⟩ ⟨some fixtureHeader, 0, [], []⟩
    fixtureHeader fixtureHeader (encode_PayloadInfo fixtureHeader)
    rfl rfl rfl rfl rfl rfl rfl

-- Cross-checks: the header codec round-trips, and a header frame fails as a sample.
example : decode_PayloadInfo (encode_PayloadInfo fixtureHeader) = some fixtureHeader := rfl

example : decode_sample fixtureHeader (encode_PayloadInfo fixtureHeader) = none := rfl

/-- Claim C7 (confirmed): `makeTimeInterval` anchors a relative start
and end at `now`, a relative start alone at the end, a non-negative
relative end at the start and a negative relative end at `now`, and
always returns an ordered pair. -/
theorem makeTimeInterval_resolution :
    (∀ ds de now : Int,
      makeTimeInterval (.td ds) (.td de) now = orderPair (now + ds) (now + de)) ∧
    (∀ ds te now : Int,
      makeTimeInterval (.td ds) (.dt te) now = orderPair (te + ds) te) ∧
    (∀ ts de now : Int, 0 ≤ de →
      makeTimeInterval (.dt ts) (.td de) now = orderPair ts (ts + de)) ∧
    (∀ ts de now : Int, de < 0 →
      makeTimeInterval (.dt ts) (.td de) now = orderPair ts (now + de)) ∧
    (∀ ts te now : Int,
      makeTimeInterval (.dt ts) (.dt te) now = orderPair ts te) ∧
    (∀ s e now, (makeTimeInterval s e now).1 ≤ (makeTimeInterval s e now).2) := by
  refine ⟨fun ds de now => rfl, fun ds te now => rfl, ?_, ?_, fun ts te now => rfl, ?_⟩
  · intro ts de now h
    simp [makeTimeInterval, orderPair, h]
  · intro ts de now h
    simp [makeTimeInterval, orderPair, if_neg (by omega : ¬(0:Int) ≤ de)]
  · intro s e now
    cases s <;> cases e <;> simp only [makeTimeInterval] <;> split_ifs <;>
      simp <;> omega

/-- Witness for C7: both signs of a relative end anchored concretely. -/
theorem makeTimeInterval_resolution_witness :
    ((0:Int) ≤ 10 ∧ makeTimeInterval (.dt 50) (.td 10) 7 = orderPair 50 60) ∧
    ((-10:Int) < 0 ∧ makeTimeInterval (.dt 50) (.td (-10)) 7 = orderPair 50 (-3)) :=
  ⟨⟨by decide, makeTimeInterval_resolution.2.2.1 50 10 7 (by decide)⟩,
   ⟨by decide, makeTimeInterval_resolution.2.2.2.1 50 (-10) 7 (by decide)⟩⟩

/-- Claim C8 (confirmed): with `delta` the window length in seconds and
`N = ceil(delta / count)`, the request uses `caplotbinning_<N>(<pv>)`
exactly when `N > 1` and `delta > 0`, and the unchanged PV otherwise. -/
theorem plot_binning_rewrite (t0 tend : Int) (count : Nat) (pv : String)
    (_hc : 0 < count) :
    plotPV t0 tend count pv =
      (if 1 < ⌈(|((tend - t0 : Int) : ℚ)| / 1000000) / (count : ℚ)⌉
          ∧ 0 < |((tend - t0 : Int) : ℚ)| / 1000000
       then "caplotbinning_"
              ++ toString (⌈(|((tend - t0 : Int) : ℚ)| / 1000000) / (count : ℚ)⌉ : Int)
              ++ "(" ++ pv ++ ")"
       else pv) := by
  simp only [plotPV]
  split_ifs with h1 h2 h2
  · rcases h2 with ⟨ha, hb⟩
    rcases h1 with h | h
    · omega
    · linarith
  · rfl
  · rfl
  · push_neg at h1
    exact absurd h1 h2

/-- Witness for C8: a 30-second window at `count = 3` is rewritten with
`N = 10`. -/
theorem plot_binning_rewrite_witness :
    (0 : Nat) < 3 ∧
      plotPV 0 30000000 3 "x" =
        (if 1 < ⌈(|((30000000 - 0 : Int) : ℚ)| / 1000000) / ((3 : Nat) : ℚ)⌉
            ∧ 0 < |((30000000 - 0 : Int) : ℚ)| / 1000000
         then "caplotbinning_"
                ++ toString (⌈(|((30000000 - 0 : Int) : ℚ)| / 1000000) / ((3 : Nat) : ℚ)⌉ : Int)
                ++ "(" ++ "x" ++ ")"
         else "x") :=
  ⟨by decide, plot_binning_rewrite 0 30000000 3 "x" (by decide)⟩

/-- Claim C9 (corrected): for a pattern of the form `<op>_<N>(<inner>)`
in Wildcard or Regex mode, `search` queries the server with a regex
built from `<inner>` alone and wraps every returned PV name back into
`<op>_<N>(<pv>)`.  (In Exact mode — part of the claim as frozen — the
operator is stripped for the query but the results come back unwrapped;
see the counterexample.) -/
theorem search_op_wrap (pattern g1 inner : List Char) (mode : MatchMode)
    (server : List Char → List (List Char))
    (hop : matchOp pattern = some (g1, inner)) (hmode : mode ≠ MatchMode.Exact) :
    search pattern mode server =
      (server (anchorRegex
          (match mode with
           | .Wildcard => wild2re inner
           | _ => inner))).map
        (fun pv => g1 ++ '(' :: pv ++ [')']) := by
  cases mode with
  | Exact => exact absurd rfl hmode
  | Wildcard => simp [search, hop]
  | Regex => simp [search, hop]

/-- Witness for C9: a concrete operator pattern in Regex mode is
stripped for the query and the server's PV is wrapped back. -/
theorem search_op_wrap_witness :
    matchOp ("mean_4(abc)".toList) = some ("mean_4".toList, "abc".toList) ∧
      search ("mean_4(abc)".toList) MatchMode.Regex (fun _ => ["pv1".toList]) =
        ["pv1".toList].map (fun pv => "mean_4".toList ++ '(' :: pv ++ [')']) :=
  ⟨rfl,
   (search_op_wrap ("mean_4(abc)".toList) ("mean_4".toList) ("abc".toList)
      MatchMode.Regex (fun _ => ["pv1".toList]) rfl (by decide)).trans rfl⟩

/-- Counterexample for C9 as frozen: in Exact mode the operator pattern
is stripped for the query but the returned PV names are not wrapped back
into the operator form. -/
theorem search_op_wrap_cex :
    search ("mean_4(abc)".toList) MatchMode.Exact (fun _ => ["abc".toList]) =
        ["abc".toList] ∧
      ¬ search ("mean_4(abc)".toList) MatchMode.Exact (fun _ => ["abc".toList]) =
          ["mean_4(abc)".toList] := by
  constructor
  · rfl
  · intro h
    rw [show search ("mean_4(abc)".toList) MatchMode.Exact (fun _ => ["abc".toList])
          = ["abc".toList] from rfl] at h
    exact absurd h (by decide)

/-- Claim C10 (confirmed): whatever failure the body of `makeTime` hits
(unknown unit — a `KeyError`; malformed date or non-numeric seconds or
out-of-range components — `ValueError`s; unsupported timezone —
`NotImplementedError`; out-of-range timestamp — `OverflowError`), the
error surfaced to the caller is always the wrapper `ValueError` naming
the (possibly normalized) input; no other exception kind escapes. -/
theorem makeTime_error_is_valueError (intime : PyVal) (now : NowCtx)
    (e : PyErr) (h : makeTime intime now = .error e) :
    e = .valueError (normalizedName intime) := by
  cases hb : makeTimeBody intime now with
  | ok r => simp [makeTime, hb] at h
  | error e2 =>
    simp only [makeTime, hb] at h
    injection h with h
    exact h.symm

/-- Witness for C10: an unknown unit string (a `KeyError` inside the
body) surfaces as the wrapper `ValueError`. -/
theorem makeTime_error_is_valueError_witness :
    makeTime (.str ("5 parsecs".toList)) ⟨0, 2020, 1, 1⟩ =
        .error (.valueError (.str ("5 parsecs".toList))) ∧
      (PyErr.valueError (.str ("5 parsecs".toList))) =
        .valueError (normalizedName (.str ("5 parsecs".toList))) :=
  ⟨rfl, makeTime_error_is_valueError (.str ("5 parsecs".toList)) ⟨0, 2020, 1, 1⟩ _ rfl⟩

-- Cross-checks: makeTimeBody error kinds agree with test_date.TestMakeTime/TestParseAbs.
example : makeTimeBody (.str ("".toList)) ⟨0, 2020, 1, 1⟩ = .error .valueErrorBare := rfl

example : makeTimeBody (.str ("s".toList)) ⟨0, 2020, 1, 1⟩ = .error .valueErrorBare := rfl

example : makeTimeBody (.str ("1d 1".toList)) ⟨0, 2020, 1, 1⟩
    = .error .valueErrorBare := rfl

example : makeTimeBody (.str ("1d s".toList)) ⟨0, 2020, 1, 1⟩
    = .error .valueErrorBare := rfl

example : makeTimeBody (.str ("s1d".toList)) ⟨0, 2020, 1, 1⟩
    = .error .valueErrorBare := rfl

example : makeTimeBody (.str ("1/14".toList)) ⟨0, 2020, 1, 1⟩
    = .error .valueErrorBare := rfl

example : makeTimeBody (.str ("2022-1/14 1:1".toList)) ⟨0, 2020, 1, 1⟩
    = .error .keyError := rfl

example : makeTimeBody (.dt 5 .other) ⟨0, 2020, 1, 1⟩
    = .error .notImplementedError := rfl

example : makeTimeBody (.num (999999999999 : ℚ)) ⟨0, 2020, 1, 1⟩
    = .error .overflowError := rfl

example : makeTimeBody (.num (1642362501 : ℚ)) ⟨0, 2020, 1, 1⟩
    = .ok (.datetime 1642362501) := rfl

-- Cross-checks: split/join agree with test_ext.TestXCode.test_escape and test_bad_escape.
example : split [] = .ok ([], []) := rfl

example : split [10] = .ok ([[]], []) := rfl

example : split [104, 105] = .ok ([], [104, 105]) := rfl

example : split [104, 105, 10] = .ok ([[104, 105]], []) := rfl

example : split [104, 10, 119] = .ok ([[104]], [119]) := rfl

example : split [27, 1, 10, 27, 2, 10, 27, 3, 10] = .ok ([[27], [10], [13]], []) := rfl

example : split [113, 27, 1, 113, 10, 113, 27, 2, 113, 10] = .ok ([[113, 27, 113], [113, 10, 113]], []) := rfl

example : split [27, 10] = .error () := rfl

example : split [120, 27, 10] = .error () := rfl

example : split [27, 27, 10] = .error () := rfl

example : split [104, 32, 27, 119, 10] = .error () := rfl

example : join [[27], [10], [13]] = [27, 1, 10, 27, 2, 10, 27, 3, 10] := rfl

example : split [27] = .ok ([], [27]) := rfl

end AAClient
